import Mathlib

/-!
Verification of the CopperZync coin-analysis backend (src/main.py) against its
natural-language specification.

The Python source is shallowly embedded: text is `List Char`, Python's
exceptions are `Except Unit`, and `json.loads` is modelled by an executable
JSON parser over the same value grammar.  Each definition carries a comment
naming the source construct it embeds.
-/

/-- Text is modelled as a list of characters (Python `str`). -/
abbrev Str := List Char

/-- Helper turning a Lean string literal into the `Str` representation. -/
def S (s : String) : Str := s.data

/-- The character `\x7b` (opening curly brace). -/
def lbrace : Char := (S "\x7b").headD ' '

/-- The character `\x7d` (closing curly brace). -/
def rbrace : Char := (S "\x7d").headD ' '

/-- `needle.isPre hay` : `needle` is a prefix of `hay` (used to model regex
literal matching at a position). -/
def isPre : Str → Str → Bool
  | [], _ => true
  | _ :: _, [] => false
  | a :: as, b :: bs => a == b && isPre as bs

/-- Substring containment (`needle in hay` for Python strings). -/
def containsSub (needle : Str) : Str → Bool
  | [] => isPre needle []
  | c :: t => isPre needle (c :: t) || containsSub needle t

/-- First occurrence of `needle` in the text: returns the part strictly before
the occurrence and the part strictly after it.  This models the leftmost-match
rule of `re.search`. -/
def splitFirst (needle : Str) : Str → Option (Str × Str)
  | [] => if isPre needle [] then some ([], []) else none
  | c :: t =>
    if isPre needle (c :: t) then some ([], (c :: t).drop needle.length)
    else
      match splitFirst needle t with
      | some (pre, post) => some (c :: pre, post)
      | none => none

/-- Python whitespace for `str.strip()` (ASCII fragment). -/
def pySpace (c : Char) : Bool :=
  c == ' ' || c == '\t' || c == '\n' || c == '\r' || c == '\x0b' || c == '\x0c'

/-- `str.strip()`. -/
def pyStrip (t : Str) : Str :=
  ((t.dropWhile pySpace).reverse.dropWhile pySpace).reverse

/-- `str.lower()` (ASCII fragment; the keyword tables are ASCII-lowercase). -/
def pyLower (t : Str) : Str := t.map Char.toLower

/-- Worker for `pyTitle`: the boolean records whether the previous character
was alphabetic. -/
def titleGo : Bool → Str → Str
  | _, [] => []
  | prevAlpha, c :: rest =>
    if c.isAlpha then
      (if prevAlpha then c.toLower else c.toUpper) :: titleGo true rest
    else c :: titleGo false rest

/-- `str.title()` (ASCII fragment): first letter of each run of letters is
upper-cased, the rest lower-cased. -/
def pyTitle (t : Str) : Str := titleGo false t

/-- `", ".join(xs)` — Python string join. -/
def joinSep (sep : Str) : List Str → Str
  | [] => []
  | [x] => x
  | x :: y :: xs => x ++ sep ++ joinSep sep (y :: xs)

/-- JSON values, the common value domain of `json.loads` and the response
shaping code.  A number literal with digits `d₁…dₙ`, fractional digits and an
exponent is stored exactly as a mantissa `m` and a power-of-ten exponent `e`
(value `m·10^e`); Python's int/float distinction is irrelevant to the claims
(only truthiness `m ≠ 0` and equality against strings are ever tested). -/
inductive Json where
  | null
  | bool (b : Bool)
  | num (m : Int) (e : Int)
  | str (s : Str)
  | arr (elems : List Json)
  | obj (fields : List (Str × Json))
deriving Repr

/-- Python dict lookup `d[k]` / `k in d` on the association-list model. -/
def objGet? (l : List (Str × Json)) (k : Str) : Option Json :=
  match l with
  | [] => none
  | (k', v) :: t => if k' = k then some v else objGet? t k

/-- Python dict assignment `d[k] = v`: replaces the value in place if the key
exists, otherwise appends the binding. -/
def objUpsert (l : List (Str × Json)) (k : Str) (v : Json) : List (Str × Json) :=
  match l with
  | [] => [(k, v)]
  | (k', v') :: t => if k' = k then (k, v) :: t else (k', v') :: objUpsert t k v

/-- Python truthiness of a JSON value (`if value:`): `None`, `False`, zero,
the empty string, the empty list and the empty dict are falsy. -/
def truthy : Json → Bool
  | .null => false
  | .bool b => b
  | .num m _ => m ≠ 0
  | .str s => !s.isEmpty
  | .arr l => !l.isEmpty
  | .obj l => !l.isEmpty

/-- `value == "unknown" or value == "Unknown"` (Python equality against a
string is `False` for non-strings). -/
def isUnknownStr (v : Json) : Bool :=
  match v with
  | .str s => s = S "unknown" || s = S "Unknown"
  | _ => false

/-- The acceptance test of `extract_field_value`:
`value and value != "unknown" and value != "Unknown"`. -/
def acceptableVal (v : Json) : Bool := truthy v && !isUnknownStr v

/-- JSON inter-token whitespace. -/
def jsonWs (c : Char) : Bool := c == ' ' || c == '\t' || c == '\n' || c == '\r'

/-- Drop JSON whitespace. -/
def skipWs (t : Str) : Str := t.dropWhile jsonWs

/-- Hexadecimal digit value, for `\uXXXX` escapes. -/
def hexVal? (c : Char) : Option Nat :=
  if '0' ≤ c ∧ c ≤ '9' then some (c.toNat - '0'.toNat)
  else if 'a' ≤ c ∧ c ≤ 'f' then some (c.toNat - 'a'.toNat + 10)
  else if 'A' ≤ c ∧ c ≤ 'F' then some (c.toNat - 'A'.toNat + 10)
  else none

/-- Value of a digit run. -/
def digitsToNat (ds : Str) : Nat :=
  ds.foldl (fun acc c => acc * 10 + (c.toNat - '0'.toNat)) 0

/-- String body parser for `json.loads` (the opening quote has been
consumed): returns the decoded characters and the rest after the closing
quote.  Standard escapes are handled; a surrogate `\uXXXX` pair is combined;
an unpaired surrogate is rejected (it is unrepresentable as a Lean `Char`;
no claim exercises this corner). -/
def parseStr : Str → Except Unit (Str × Str)
  | [] => .error ()
  | c :: rest =>
    if c == '"' then .ok ([], rest)
    else if c == '\\' then
      match rest with
      | [] => .error ()
      | e :: rest' =>
        if e == '"' || e == '\\' || e == '/' then
          (parseStr rest').map (fun p => (e :: p.1, p.2))
        else if e == 'b' then (parseStr rest').map (fun p => ('\x08' :: p.1, p.2))
        else if e == 'f' then (parseStr rest').map (fun p => ('\x0c' :: p.1, p.2))
        else if e == 'n' then (parseStr rest').map (fun p => ('\n' :: p.1, p.2))
        else if e == 'r' then (parseStr rest').map (fun p => ('\r' :: p.1, p.2))
        else if e == 't' then (parseStr rest').map (fun p => ('\t' :: p.1, p.2))
        else if e == 'u' then
          match rest' with
          | a :: b :: c2 :: d :: rest2 =>
            match hexVal? a, hexVal? b, hexVal? c2, hexVal? d with
            | some ha, some hb, some hc, some hd =>
              let n := ((ha * 16 + hb) * 16 + hc) * 16 + hd
              if 0xD800 ≤ n ∧ n ≤ 0xDBFF then
                match rest2 with
                | b1 :: u1 :: a2 :: b2 :: c3 :: d2 :: rest3 =>
                  if b1 == '\\' && u1 == 'u' then
                    match hexVal? a2, hexVal? b2, hexVal? c3, hexVal? d2 with
                    | some ha2, some hb2, some hc2, some hd2 =>
                      let n2 := ((ha2 * 16 + hb2) * 16 + hc2) * 16 + hd2
                      if 0xDC00 ≤ n2 ∧ n2 ≤ 0xDFFF then
                        let cp := 0x10000 + (n - 0xD800) * 0x400 + (n2 - 0xDC00)
                        (parseStr rest3).map (fun p => (Char.ofNat cp :: p.1, p.2))
                      else .error ()
                    | _, _, _, _ => .error ()
                  else .error ()
                | _ => .error ()
              else if 0xDC00 ≤ n ∧ n ≤ 0xDFFF then .error ()
              else (parseStr rest2).map (fun p => (Char.ofNat n :: p.1, p.2))
            | _, _, _, _ => .error ()
          | _ => .error ()
        else .error ()
    else if c.toNat < 0x20 then .error ()
    else (parseStr rest).map (fun p => (c :: p.1, p.2))

/-- Number parser for `json.loads` (input starts at the first character of
the literal).  Grammar: `-? int frac? exp?` with strict leading-zero rule. -/
def parseNum (t : Str) : Except Unit (Json × Str) := do
  let (neg, t1) :=
    match t with
    | c :: rest => if c == '-' then (true, rest) else (false, t)
    | [] => (false, t)
  let ds := t1.takeWhile Char.isDigit
  let r1 := t1.dropWhile Char.isDigit
  if ds = [] then .error () else
  if ds.length > 1 && ds.headD ' ' == '0' then .error () else
  let fr2 ←
    (match r1 with
    | p :: rest2 =>
      if p == '.' then
        let f := rest2.takeWhile Char.isDigit
        if f = [] then Except.error () else Except.ok (f, rest2.dropWhile Char.isDigit)
      else Except.ok (([] : Str), r1)
    | [] => Except.ok (([] : Str), r1) : Except Unit (Str × Str))
  let er3 ←
    (match fr2.2 with
    | p :: rest3 =>
      if p == 'e' || p == 'E' then
        let (esign, rest4) :=
          match rest3 with
          | q :: rest5 =>
            if q == '+' then ((1 : Int), rest5)
            else if q == '-' then ((-1 : Int), rest5)
            else ((1 : Int), rest3)
          | [] => ((1 : Int), rest3)
        let eds := rest4.takeWhile Char.isDigit
        if eds = [] then Except.error ()
        else Except.ok (esign * (digitsToNat eds : Int), rest4.dropWhile Char.isDigit)
      else Except.ok ((0 : Int), fr2.2)
    | [] => Except.ok ((0 : Int), fr2.2) : Except Unit (Int × Str))
  let mant : Nat := digitsToNat (ds ++ fr2.1)
  let m : Int := if neg then -(mant : Int) else (mant : Int)
  .ok (Json.num m (er3.1 - fr2.1.length), er3.2)

/-- Literal-keyword tail check (`null`, `true`, `false`). -/
def expectLit (lit : Str) (t : Str) (v : Json) : Except Unit (Json × Str) :=
  if isPre lit t then .ok (v, t.drop lit.length) else .error ()

mutual

/-- Recursive-descent value parser for `json.loads`, fuelled to make the
recursion structural; the fuel passed by `jsonLoads` is generous enough that
running out only happens on inputs `json.loads` would reject anyway. -/
def parseVal : Nat → Str → Except Unit (Json × Str)
  | 0, _ => .error ()
  | fuel + 1, t =>
    match skipWs t with
    | [] => .error ()
    | c :: rest =>
      if c == 'n' then expectLit (S "ull") rest Json.null
      else if c == 't' then expectLit (S "rue") rest (Json.bool true)
      else if c == 'f' then expectLit (S "alse") rest (Json.bool false)
      else if c == '"' then (parseStr rest).map (fun p => (Json.str p.1, p.2))
      else if c == lbrace then
        (parseObjItems fuel rest).map (fun p =>
          (Json.obj (p.1.foldl (fun acc kv => objUpsert acc kv.1 kv.2) []), p.2))
      else if c == '[' then
        (parseArrItems fuel rest).map (fun p => (Json.arr p.1, p.2))
      else if c == '-' || c.isDigit then parseNum (c :: rest)
      else .error ()

/-- Array items after `[` (possibly the empty array). -/
def parseArrItems : Nat → Str → Except Unit (List Json × Str)
  | 0, _ => .error ()
  | fuel + 1, t =>
    match skipWs t with
    | [] => .error ()
    | c :: rest =>
      if c == ']' then .ok ([], rest)
      else do
        let (v, r) ← parseVal fuel t
        let (vs, r') ← parseArrMore fuel r
        .ok (v :: vs, r')

/-- Array continuation: `, value` repeated until `]`. -/
def parseArrMore : Nat → Str → Except Unit (List Json × Str)
  | 0, _ => .error ()
  | fuel + 1, t =>
    match skipWs t with
    | [] => .error ()
    | c :: rest =>
      if c == ']' then .ok ([], rest)
      else if c == ',' then do
        let (v, r) ← parseVal fuel rest
        let (vs, r') ← parseArrMore fuel r
        .ok (v :: vs, r')
      else .error ()

/-- Object members after the opening brace (possibly the empty object). -/
def parseObjItems : Nat → Str → Except Unit (List (Str × Json) × Str)
  | 0, _ => .error ()
  | fuel + 1, t =>
    match skipWs t with
    | [] => .error ()
    | c :: rest =>
      if c == rbrace then .ok ([], rest)
      else if c == '"' then do
        let (k, r1) ← parseStr rest
        match skipWs r1 with
        | c2 :: r2 =>
          if c2 == ':' then do
            let (v, r3) ← parseVal fuel r2
            let (kvs, r4) ← parseObjMore fuel r3
            .ok ((k, v) :: kvs, r4)
          else .error ()
        | [] => .error ()
      else .error ()

/-- Object continuation: `, "key": value` repeated until the closing brace. -/
def parseObjMore : Nat → Str → Except Unit (List (Str × Json) × Str)
  | 0, _ => .error ()
  | fuel + 1, t =>
    match skipWs t with
    | [] => .error ()
    | c :: rest =>
      if c == rbrace then .ok ([], rest)
      else if c == ',' then
        match skipWs rest with
        | c2 :: r1 =>
          if c2 == '"' then do
            let (k, r2) ← parseStr r1
            match skipWs r2 with
            | c3 :: r3 =>
              if c3 == ':' then do
                let (v, r4) ← parseVal fuel r3
                let (kvs, r5) ← parseObjMore fuel r4
                .ok ((k, v) :: kvs, r5)
              else .error ()
            | [] => .error ()
          else .error ()
        | [] => .error ()
      else .error ()

end

/-- `json.loads`: parse one JSON document, requiring the whole input to be
consumed up to trailing whitespace (Python raises `JSONDecodeError`,
modelled as `.error`).  The `NaN`/`Infinity` extensions are not modelled
(no claim exercises them). -/
def jsonLoads (t : Str) : Except Unit Json := do
  let (v, r) ← parseVal (2 * t.length + 8) t
  if skipWs r = [] then .ok v else .error ()

/-- The regex search `re.search(r"```json(.*?)```", text, re.DOTALL)`:
leftmost occurrence of the literal opener, lazy interior up to the next
occurrence of three backticks.  (If the leftmost occurrence of the opener has
no closing backticks after it, no later occurrence can — any later opener
itself contains backticks after the first one — so the regex has no match,
matching this composition of first-occurrence searches.) -/
def findJsonFence (t : Str) : Option Str :=
  match splitFirst (S "```json") t with
  | none => none
  | some (_, rest) =>
    match splitFirst (S "```") rest with
    | none => none
    | some (interior, _) => some interior

/-- The regex search `re.search(r"```(.*?)```", text, re.DOTALL)`, with the
same leftmost/lazy reading as `findJsonFence`. -/
def findFence (t : Str) : Option Str :=
  match splitFirst (S "```") t with
  | none => none
  | some (_, rest) =>
    match splitFirst (S "```") rest with
    | none => none
    | some (interior, _) => some interior

/-- Truncate just after the last closing brace (the backtracking of the
greedy `.*` in `\x7b.*\x7d`). -/
def takeToLastClose (t : Str) : Str :=
  (t.reverse.dropWhile (fun c => c ≠ rbrace)).reverse

/-- The regex search `re.search(r'\x7b.*\x7d', text, re.DOTALL)`: a match
starts at the leftmost opening brace having some closing brace after it and
extends greedily to the last closing brace of the whole text.  (If the first
opening brace has no closing brace after it, no later opening brace has
either, so there is no match.) -/
def findBrace (t : Str) : Option Str :=
  match splitFirst [lbrace] t with
  | none => none
  | some (_, rest) =>
    if rest.contains rbrace then some (lbrace :: takeToLastClose rest) else none

/-- The fallback object `\x7b"raw": text\x7d` built by `extract_json`'s
`except` handler. -/
def rawWrapper (t : Str) : Json := .obj [(S "raw", .str t)]

/-- Steps 3 and 4 of `extract_json`: brace-span search, else direct parse of
the stripped text.  A parse failure here propagates (to the outer handler). -/
def extract_json_step34 (t : Str) : Except Unit Json :=
  match findBrace t with
  | some span => jsonLoads span
  | none => jsonLoads (pyStrip t)

/-- The `try:` body of `extract_json` (src/main.py lines 44-64).  Only the
untagged-fence step wraps its `json.loads` in an inner `try/except: pass`;
parse failures of the other steps escape to the outer handler. -/
def extract_json_try (t : Str) : Except Unit Json :=
  match findJsonFence t with
  | some interior => jsonLoads (pyStrip interior)
  | none =>
    match findFence t with
    | some interior =>
      match jsonLoads (pyStrip interior) with
      | .ok v => .ok v
      | .error _ => extract_json_step34 t
    | none => extract_json_step34 t

/-- `extract_json` (src/main.py lines 43-68): the Response Normalizer.  The
outer `except Exception` maps any escaped parse failure to the raw-text
wrapper. -/
def extract_json (t : Str) : Json :=
  match extract_json_try t with
  | .ok v => v
  | .error _ => rawWrapper t

/-- The alias-scanning loop inside `extract_field_value`. -/
def resolveLoop (l : List (Str × Json)) (dflt : Json) : List Str → Json
  | [] => dflt
  | n :: rest =>
    match objGet? l n with
    | some v => if acceptableVal v then v else resolveLoop l dflt rest
    | none => resolveLoop l dflt rest

/-- `extract_field_value` (src/main.py lines 71-79): the Field Resolver. -/
def extract_field_value (data : Json) (possible_names : List Str)
    (dflt : Json := .str (S "unknown")) : Json :=
  match data with
  | .obj l => resolveLoop l dflt possible_names
  | _ => dflt

/-- The `country_patterns` table (src/main.py lines 86-97). -/
def country_patterns : List (Str × List Str) :=
  [ (S "france", [S "france", S "french", S "republique francaise", S "république française"]),
    (S "usa", [S "united states", S "usa", S "us", S "american"]),
    (S "uk", [S "united kingdom", S "uk", S "britain", S "british", S "england"]),
    (S "germany", [S "germany", S "german", S "deutschland"]),
    (S "italy", [S "italy", S "italian", S "italia"]),
    (S "spain", [S "spain", S "spanish", S "españa"]),
    (S "canada", [S "canada", S "canadian"]),
    (S "australia", [S "australia", S "australian"]),
    (S "japan", [S "japan", S "japanese", S "nihon"]),
    (S "china", [S "china", S "chinese", S "zhongguo"]) ]

/-- The `denomination_patterns` table (src/main.py lines 105-125). -/
def denomination_patterns : List (Str × List Str) :=
  [ (S "1 cent", [S "1 cent", S "one cent", S "penny"]),
    (S "5 cents", [S "5 cents", S "five cents", S "nickel"]),
    (S "10 cents", [S "10 cents", S "ten cents", S "dime"]),
    (S "25 cents", [S "25 cents", S "quarter", S "twenty-five cents"]),
    (S "50 cents", [S "50 cents", S "half dollar", S "fifty cents"]),
    (S "1 dollar", [S "1 dollar", S "one dollar", S "dollar coin"]),
    (S "1 euro", [S "1 euro", S "one euro"]),
    (S "2 euros", [S "2 euros", S "two euros"]),
    (S "5 euros", [S "5 euros", S "five euros"]),
    (S "10 euros", [S "10 euros", S "ten euros"]),
    (S "20 euros", [S "20 euros", S "twenty euros"]),
    (S "50 euros", [S "50 euros", S "fifty euros"]),
    (S "1 pound", [S "1 pound", S "one pound", S "pound sterling"]),
    (S "2 pounds", [S "2 pounds", S "two pounds"]),
    (S "1 yen", [S "1 yen", S "one yen"]),
    (S "5 yen", [S "5 yen", S "five yen"]),
    (S "10 yen", [S "10 yen", S "ten yen"]),
    (S "50 yen", [S "50 yen", S "fifty yen"]),
    (S "100 yen", [S "100 yen", S "hundred yen"]) ]

/-- The `composition_patterns` table (src/main.py lines 133-143). -/
def composition_patterns : List (Str × List Str) :=
  [ (S "copper", [S "copper", S "cu"]),
    (S "bronze", [S "bronze"]),
    (S "brass", [S "brass"]),
    (S "silver", [S "silver", S "ag"]),
    (S "gold", [S "gold", S "au"]),
    (S "nickel", [S "nickel", S "ni"]),
    (S "zinc", [S "zinc", S "zn"]),
    (S "aluminum", [S "aluminum", S "aluminium", S "al"]),
    (S "steel", [S "steel", S "iron"]) ]

/-- `any(pattern in text_lower for pattern in patterns)`. -/
def anyPatternIn (lower : Str) (pats : List Str) : Bool :=
  pats.any (fun p => containsSub p lower)

/-- A `for … if any(…): …; break` scan over a keyword table: the first entry
with a matching pattern wins. -/
def firstMatch (lower : Str) : List (Str × List Str) → Option Str
  | [] => none
  | (name, pats) :: rest =>
    if anyPatternIn lower pats then some name else firstMatch lower rest

/-- The `found_compositions` accumulation in `enhance_with_text_analysis`
(src/main.py lines 145-148): all matching table entries, in table order. -/
def foundCompositions (lower : Str) : List Str :=
  (composition_patterns.filter (fun e => anyPatternIn lower e.2)).map Prod.fst

/-- Read `resp["coin_analysis"]["basic_info"][field]` (total variant, for
inspecting reports). -/
def getBasic? (resp : Json) (field : Str) : Option Json :=
  match resp with
  | .obj l =>
    match objGet? l (S "coin_analysis") with
    | some (.obj ca) =>
      match objGet? ca (S "basic_info") with
      | some (.obj bi) => objGet? bi field
      | _ => none
    | _ => none
  | _ => none

/-- The assignment `response["coin_analysis"]["basic_info"][field] = v`.
Python raises `KeyError`/`TypeError` when an intermediate member is missing
or not a dict; the final assignment itself inserts the key if absent. -/
def setBasicField (resp : Json) (field : Str) (v : Json) : Except Unit Json :=
  match resp with
  | .obj l =>
    match objGet? l (S "coin_analysis") with
    | some (.obj ca) =>
      match objGet? ca (S "basic_info") with
      | some (.obj bi) =>
        .ok (.obj (objUpsert l (S "coin_analysis")
          (.obj (objUpsert ca (S "basic_info") (.obj (objUpsert bi field v))))))
      | _ => .error ()
    | _ => .error ()
  | _ => .error ()

/-- Whether the nested path `coin_analysis → basic_info` exists as dicts
(exactly when `setBasicField` succeeds). -/
def hasBasicPath (resp : Json) : Bool :=
  match resp with
  | .obj l =>
    match objGet? l (S "coin_analysis") with
    | some (.obj ca) =>
      match objGet? ca (S "basic_info") with
      | some (.obj _) => true
      | _ => false
    | _ => false
  | _ => false

/-- `enhance_with_text_analysis` (src/main.py lines 81-153): the Text-Pattern
Fallback.  Lowercases the raw text once, then sets country (first table
match, title-cased), denomination (first table match) and composition (all
table matches joined with ", "), leaving unmatched fields untouched. -/
def enhance_with_text_analysis (raw_text : Str) (response : Json) :
    Except Unit Json :=
  match (match firstMatch (pyLower raw_text) country_patterns with
         | some c => setBasicField response (S "country") (.str (pyTitle c))
         | none => .ok response) with
  | .error e => .error e
  | .ok r1 =>
    match (match firstMatch (pyLower raw_text) denomination_patterns with
           | some d => setBasicField r1 (S "denomination") (.str d)
           | none => .ok r1) with
    | .error e => .error e
    | .ok r2 =>
      match foundCompositions (pyLower raw_text) with
      | [] => .ok r2
      | f :: fs =>
        setBasicField r2 (S "composition") (.str (joinSep (S ", ") (f :: fs)))

/-- Alias list for the released year (src/main.py lines 165-167). -/
def yearAliases : List Str :=
  [S "year first released", S "year", S "release_year", S "mint_year",
   S "first_released", S "issued_year"]

/-- Alias list for the country (src/main.py lines 169-171). -/
def countryAliases : List Str :=
  [S "country", S "nation", S "origin", S "issuing_country"]

/-- Alias list for the denomination (src/main.py lines 173-175). -/
def denomAliases : List Str :=
  [S "denomination", S "value", S "face_value", S "coin_value", S "monetary_value"]

/-- Alias list for the composition (src/main.py lines 177-179). -/
def compAliases : List Str :=
  [S "composition", S "material", S "metal", S "alloy", S "composition_material"]

/-- Alias list for the collector value (src/main.py lines 181-183). -/
def valueAliases : List Str :=
  [S "value", S "collector_value", S "market_value", S "estimated_value", S "worth"]

/-- Alias list for the rarity (src/main.py lines 185-187). -/
def rarityAliases : List Str :=
  [S "rarity", S "scarcity", S "availability", S "rarity_level"]

/-- Alias list for the description (src/main.py lines 189-191). -/
def descAliases : List Str :=
  [S "description", S "description_text", S "coin_description", S "details"]

/-- Alias list for the historical context (src/main.py lines 193-195). -/
def histAliases : List Str :=
  [S "historical_context", S "history", S "historical_background", S "context"]

/-- The fixed technical keys scanned when `other_details` is unusable
(src/main.py line 203). -/
def techKeys : List Str :=
  [S "mint_mark", S "diameter_mm", S "weight", S "thickness", S "edge_type"]

/-- The `technical_details` assembly (src/main.py lines 198-205), for a dict
input `l`: use an object-valued `other_details` verbatim, otherwise collect
the known technical keys present at top level, in the scan order. -/
def technicalDetails (l : List (Str × Json)) : Json :=
  match objGet? l (S "other_details") with
  | some (.obj t) => .obj t
  | _ => .obj (techKeys.filterMap (fun k => (objGet? l k).map (fun v => (k, v))))

/-- `create_beautiful_response` (src/main.py lines 163-231).  In the source
the field extractions run first and never fail, then
`parsed_analysis.get("other_details")` raises `AttributeError` when
`parsed_analysis` is not a dict — modelled by the `.error` branch.  Both
`datetime.now()` timestamps are abstracted by the one parameter `now`. -/
def create_beautiful_response (parsed : Json) (model_used filename : Str)
    (image_size : Nat) (now : Str) : Except Unit Json :=
  match parsed with
  | .obj l =>
    .ok (.obj [
      (S "success", .bool true),
      (S "timestamp", .str now),
      (S "coin_analysis", .obj [
        (S "basic_info", .obj [
          (S "released_year", extract_field_value parsed yearAliases),
          (S "country", extract_field_value parsed countryAliases),
          (S "denomination", extract_field_value parsed denomAliases),
          (S "composition", extract_field_value parsed compAliases)]),
        (S "value_assessment", .obj [
          (S "collector_value", extract_field_value parsed valueAliases),
          (S "rarity", extract_field_value parsed rarityAliases)]),
        (S "description",
          extract_field_value parsed descAliases (.str (S "No description available"))),
        (S "historical_context",
          extract_field_value parsed histAliases (.str (S "No historical context available"))),
        (S "technical_details", technicalDetails l)]),
      (S "metadata", .obj [
        (S "model_used", .str model_used),
        (S "image_filename", .str filename),
        (S "image_size_bytes", .num image_size 0),
        (S "processing_time", .str now)])])
  | _ => .error ()

/-- `ks.all` key presence on an association list. -/
def hasKeys (l : List (Str × Json)) (ks : List Str) : Bool :=
  ks.all (fun k => (objGet? l k).isSome)

/-- The CoinReport contract of spec §6: every field of the fixed shape is
present (values are unconstrained — unresolved ones carry the sentinel the
resolver defaulted to). -/
def wellFormedReport (r : Json) : Bool :=
  match r with
  | .obj l =>
    hasKeys l [S "success", S "timestamp"] &&
    (match objGet? l (S "coin_analysis") with
     | some (.obj ca) =>
       (match objGet? ca (S "basic_info") with
        | some (.obj bi) =>
          hasKeys bi [S "released_year", S "country", S "denomination", S "composition"]
        | _ => false) &&
       (match objGet? ca (S "value_assessment") with
        | some (.obj va) => hasKeys va [S "collector_value", S "rarity"]
        | _ => false) &&
       hasKeys ca [S "description", S "historical_context", S "technical_details"]
     | _ => false) &&
    (match objGet? l (S "metadata") with
     | some (.obj m) =>
       hasKeys m [S "model_used", S "image_filename", S "image_size_bytes", S "processing_time"]
     | _ => false)
  | _ => false

/-- The check `response["coin_analysis"]["basic_info"][field] == "unknown"`
(Python equality of a non-string with a string is `False`). -/
def isUnknownField (resp : Json) (field : Str) : Bool :=
  match getBasic? resp field with
  | some (.str s) => s = S "unknown"
  | _ => false

/-- Outcome of one `/analyze` request: a 200 body or an error status. -/
inductive AnalyzeResult where
  | ok (body : Json)
  | err (status : Nat)
deriving Repr

/-- The processing of the raw completion text (src/main.py lines 341-403):
direct `json.loads`; on success either the trust-the-model path (dict
containing "coin_analysis") or the structured path with the conditional
text fallback; on `JSONDecodeError` the Normalizer path without the
fallback.  Exceptions escaping (KeyError/TypeError on the trust path,
AttributeError in `create_beautiful_response`) become a 500 via the
orchestrator's generic handler. -/
def processCompletion (raw : Str) (deployment filename : Str) (size : Nat)
    (now : Str) : AnalyzeResult :=
  match jsonLoads raw with
  | .ok v =>
    match v with
    | .obj l =>
      if (objGet? l (S "coin_analysis")).isSome then
        match objGet? l (S "metadata") with
        | some (.obj ml) =>
          let ml' := objUpsert (objUpsert (objUpsert (objUpsert ml
            (S "model_used") (.str deployment))
            (S "image_filename") (.str filename))
            (S "image_size_bytes") (.num size 0))
            (S "processing_time") (.str now)
          .ok (.obj (objUpsert (objUpsert l (S "metadata") (.obj ml'))
            (S "timestamp") (.str now)))
        | _ => .err 500
      else
        match create_beautiful_response v deployment filename size now with
        | .error _ => .err 500
        | .ok b =>
          if isUnknownField b (S "country") && isUnknownField b (S "denomination") then
            match enhance_with_text_analysis raw b with
            | .ok e => .ok e
            | .error _ => .err 500
          else .ok b
    | _ =>
      match create_beautiful_response v deployment filename size now with
      | .error _ => .err 500
      | .ok b => .ok b
  | .error _ =>
    match create_beautiful_response (extract_json raw) deployment filename size now with
    | .error _ => .err 500
    | .ok b => .ok b

/-- The service configuration: `AZURE_OPENAI_API_KEY`, `AZURE_OPENAI_ENDPOINT`
(possibly unset or empty — both falsy) and the deployment name (which has a
default and is never checked). -/
structure Config where
  api_key : Option Str
  endpoint : Option Str
  deployment : Str

/-- `if not AZURE_OPENAI_API_KEY or not AZURE_OPENAI_ENDPOINT` (src/main.py
line 249): an unset or empty variable is falsy. -/
def configured (cfg : Config) : Bool :=
  (match cfg.api_key with | some k => !k.isEmpty | none => false) &&
  (match cfg.endpoint with | some e => !e.isEmpty | none => false)

/-- The uploaded file: declared media type, filename and byte size. -/
structure Upload where
  content_type : Str
  filename : Str
  size : Nat

/-- Outcome of the single outbound call to the model service: a timeout
(`httpx.TimeoutException`) or a response with a status and a JSON body. -/
inductive Upstream where
  | timeout
  | resp (status : Nat) (body : Json)

/-- Extraction of the first completion's text from the upstream envelope
(src/main.py lines 337-338).  Any malformation — missing/empty/non-list
`choices`, a non-dict first choice, a missing `message`/`content`, or a
non-string content — ends in the explicit 500 or in a KeyError/TypeError
caught by the generic handler: all are `.error` here and 500 below. -/
def getContent (body : Json) : Except Unit Str :=
  match body with
  | .obj l =>
    match objGet? l (S "choices") with
    | some (.arr (c0 :: _)) =>
      match c0 with
      | .obj cl =>
        match objGet? cl (S "message") with
        | some (.obj ml) =>
          match objGet? ml (S "content") with
          | some (.str s) => .ok s
          | _ => .error ()
        | _ => .error ()
      | _ => .error ()
    | _ => .error ()
  | _ => .error ()

/-- `analyze_coin` (src/main.py lines 238-421), at the level of a decided
upstream outcome: configuration check (first), content-type check, then the
outbound call — timeout → 504, non-200 → 500, malformed envelope → 500,
otherwise the completion-processing pipeline. -/
def analyze_coin (cfg : Config) (up : Upload) (ust : Upstream) (now : Str) :
    AnalyzeResult :=
  if !configured cfg then .err 500
  else if !isPre (S "image/") up.content_type then .err 400
  else
    match ust with
    | .timeout => .err 504
    | .resp status body =>
      if status ≠ 200 then .err 500
      else
        match getContent body with
        | .error _ => .err 500
        | .ok raw => processCompletion raw cfg.deployment up.filename up.size now

/-- Whether a JSON value is a dict (`isinstance(data, dict)`). -/
def isObjJson : Json → Bool
  | .obj _ => true
  | _ => false

/-- Whether a parse attempt succeeded. -/
def exOk : Except Unit Json → Bool
  | .ok _ => true
  | .error _ => false

/-- Step 1 of the Normalizer yields no value: no tagged fence, or its
interior does not parse. -/
def step1Fails (t : Str) : Bool :=
  match findJsonFence t with
  | some s => !exOk (jsonLoads (pyStrip s))
  | none => true

/-- Step 2 of the Normalizer yields no value. -/
def step2Fails (t : Str) : Bool :=
  match findFence t with
  | some s => !exOk (jsonLoads (pyStrip s))
  | none => true

/-- Step 3 of the Normalizer yields no value. -/
def step3Fails (t : Str) : Bool :=
  match findBrace t with
  | some s => !exOk (jsonLoads s)
  | none => true

/-- Step 4 of the Normalizer yields no value. -/
def step4Fails (t : Str) : Bool := !exOk (jsonLoads (pyStrip t))

/-- The alias loop returns the value of the first alias that is present with
an acceptable value, and the default when there is none. -/
theorem resolveLoop_find? (l : List (Str × Json)) (dflt : Json) (names : List Str) :
    resolveLoop l dflt names =
      match names.find? (fun n => ((objGet? l n).map acceptableVal).getD false) with
      | some n => (objGet? l n).getD dflt
      | none => dflt := by
  induction names with
  | nil => rfl
  | cons n rest ih =>
    simp only [resolveLoop, List.find?]
    cases h : objGet? l n with
    | none => simpa [h] using ih
    | some v =>
      cases ha : acceptableVal v with
      | true => simp [h, ha]
      | false => simpa [h, ha] using ih

/-- C6: the Field Resolver returns the default immediately for non-dict
input; on a dict it scans the aliases in order and returns the value of the
first alias present as a key with an acceptable (truthy and not
"unknown"/"Unknown") value, continuing past aliases whose values are
unacceptable, and returns the default if no alias yields an acceptable
value; in particular resolving `year` in `\x7b"year": "1975"\x7d` under
`["year first released","year"]` gives "1975", and in
`\x7b"year": "unknown"\x7d` under `["year"]` gives the default "unknown". -/
theorem C6_field_resolver :
    (∀ (data : Json) (names : List Str) (dflt : Json),
        isObjJson data = false → extract_field_value data names dflt = dflt)
    ∧ (∀ (l : List (Str × Json)) (names : List Str) (dflt : Json),
        extract_field_value (Json.obj l) names dflt =
          match names.find? (fun n => ((objGet? l n).map acceptableVal).getD false) with
          | some n => (objGet? l n).getD dflt
          | none => dflt)
    ∧ extract_field_value (Json.obj [(S "year", Json.str (S "1975"))])
        [S "year first released", S "year"] = Json.str (S "1975")
    ∧ extract_field_value (Json.obj [(S "year", Json.str (S "unknown"))]) [S "year"]
        = Json.str (S "unknown") := by
  refine ⟨?_, ?_, rfl, rfl⟩
  · intro data names dflt h
    cases data with
    | obj l => simp [isObjJson] at h
    | null => rfl
    | bool b => rfl
    | num m e => rfl
    | str s => rfl
    | arr a => rfl
  · intro l names dflt
    simpa [extract_field_value] using resolveLoop_find? l dflt names

/-- Witness for C6 at a concrete non-dict input. -/
theorem C6_field_resolver_witness :
    extract_field_value (Json.str (S "not an object")) [S "year"] (Json.str (S "unknown"))
      = Json.str (S "unknown") :=
  C6_field_resolver.1 (Json.str (S "not an object")) [S "year"] (Json.str (S "unknown")) rfl

/-- C10: the resolver's acceptance test is Python truthiness, so an alias
whose value is falsy (0, false, null, "", [], \x7b\x7d, and 0.0 alike) is
skipped exactly like the "unknown"/"Unknown" sentinels; in particular
resolving `["year"]` in `\x7b"year": 0\x7d` returns the default "unknown". -/
theorem C10_falsy_values_skipped :
    (∀ (l : List (Str × Json)) (n : Str) (rest : List Str) (dflt v : Json),
        objGet? l n = some v → truthy v = false →
        extract_field_value (Json.obj l) (n :: rest) dflt =
          extract_field_value (Json.obj l) rest dflt)
    ∧ extract_field_value (Json.obj [(S "year", Json.num 0 0)]) [S "year"]
        = Json.str (S "unknown")
    ∧ extract_field_value (Json.obj [(S "a", Json.bool false), (S "b", Json.null),
        (S "c", Json.str (S "")), (S "d", Json.arr []), (S "e", Json.obj []),
        (S "f", Json.num 0 2)])
        [S "a", S "b", S "c", S "d", S "e", S "f"]
        = Json.str (S "unknown") := by
  refine ⟨?_, rfl, rfl⟩
  intro l n rest dflt v h ht
  simp [extract_field_value, resolveLoop, h, acceptableVal, ht]

/-- Witness for C10: the falsy value 0 under alias "year" is skipped like a
sentinel. -/
theorem C10_falsy_values_skipped_witness :
    extract_field_value (Json.obj [(S "year", Json.num 0 0)]) [S "year"] (Json.str (S "unknown"))
      = extract_field_value (Json.obj [(S "year", Json.num 0 0)]) [] (Json.str (S "unknown")) :=
  C10_falsy_values_skipped.1 [(S "year", Json.num 0 0)] (S "year") [] (Json.str (S "unknown"))
    (Json.num 0 0) rfl rfl

/-- C2: the Normalizer is total — for every input it either returns the value
produced by its try-body or the raw-text wrapper, and when every extraction
step fails it returns exactly `\x7b"raw": text\x7d`. -/
theorem C2_normalizer_total :
    (∀ t : Str, (∃ v, extract_json_try t = .ok v ∧ extract_json t = v)
        ∨ extract_json t = rawWrapper t)
    ∧ (∀ t : Str, step1Fails t = true → step2Fails t = true → step3Fails t = true →
        step4Fails t = true → extract_json t = rawWrapper t) := by
  constructor
  · intro t
    cases h : extract_json_try t with
    | ok v => exact Or.inl ⟨v, rfl, by simp [extract_json, h]⟩
    | error e => exact Or.inr (by simp [extract_json, h])
  · intro t h1 h2 h3 h4
    have hs34 : extract_json_step34 t = .error () := by
      unfold extract_json_step34
      cases hb : findBrace t with
      | some span =>
        simp only [step3Fails, hb] at h3
        cases hj : jsonLoads span with
        | ok v => rw [hj] at h3; simp [exOk] at h3
        | error e => simp [hj]
      | none =>
        simp only [step4Fails] at h4
        cases hj : jsonLoads (pyStrip t) with
        | ok v => rw [hj] at h4; simp [exOk] at h4
        | error e => simp [hj]
    unfold extract_json extract_json_try
    cases hf : findJsonFence t with
    | some s =>
      simp only [step1Fails, hf] at h1
      cases hj : jsonLoads (pyStrip s) with
      | ok v => rw [hj] at h1; simp [exOk] at h1
      | error e => simp [hj]
    | none =>
      cases hg : findFence t with
      | some s =>
        simp only [step2Fails, hg] at h2
        cases hj : jsonLoads (pyStrip s) with
        | ok v => rw [hj] at h2; simp [exOk] at h2
        | error e => simp [hj, hs34]
      | none => simp [hs34]

/-- Witness for C2 on the empty string and on an unbalanced-brace string. -/
theorem C2_normalizer_total_witness :
    extract_json (S "") = rawWrapper (S "")
    ∧ extract_json (S "\x7b") = rawWrapper (S "\x7b") :=
  ⟨C2_normalizer_total.2 (S "") rfl rfl rfl rfl,
   C2_normalizer_total.2 (S "\x7b") rfl rfl rfl rfl⟩

/-- C7: the `/analyze` failure statuses — 500 whenever the credentials are
missing (for any upload, the configuration check coming first), 400 for a
configured service and a non-`image/` content type, 504 on upstream timeout,
and 500 on any non-200 upstream status. -/
theorem C7_failure_statuses :
    (∀ (cfg : Config) (up : Upload) (ust : Upstream) (now : Str),
        configured cfg = false → analyze_coin cfg up ust now = .err 500)
    ∧ (∀ (cfg : Config) (up : Upload) (ust : Upstream) (now : Str),
        configured cfg = true → isPre (S "image/") up.content_type = false →
        analyze_coin cfg up ust now = .err 400)
    ∧ (∀ (cfg : Config) (up : Upload) (now : Str),
        configured cfg = true → isPre (S "image/") up.content_type = true →
        analyze_coin cfg up Upstream.timeout now = .err 504)
    ∧ (∀ (cfg : Config) (up : Upload) (status : Nat) (body : Json) (now : Str),
        configured cfg = true → isPre (S "image/") up.content_type = true →
        status ≠ 200 →
        analyze_coin cfg up (Upstream.resp status body) now = .err 500) := by
  refine ⟨?_, ?_, ?_, ?_⟩
  · intro cfg up ust now h
    simp [analyze_coin, h]
  · intro cfg up ust now h1 h2
    simp [analyze_coin, h1, h2]
  · intro cfg up now h1 h2
    simp [analyze_coin, h1, h2]
  · intro cfg up status body now h1 h2 h3
    simp [analyze_coin, h1, h2, h3]

/-- Witness for C7 at concrete configurations, uploads and upstream
outcomes, one per failure class. -/
theorem C7_failure_statuses_witness :
    analyze_coin ⟨none, some (S "e"), S "gpt-4o"⟩ ⟨S "image/png", S "a.png", 1⟩
      Upstream.timeout (S "T") = .err 500
    ∧ analyze_coin ⟨some (S "k"), some (S "e"), S "gpt-4o"⟩ ⟨S "text/plain", S "a.txt", 1⟩
      Upstream.timeout (S "T") = .err 400
    ∧ analyze_coin ⟨some (S "k"), some (S "e"), S "gpt-4o"⟩ ⟨S "image/png", S "a.png", 1⟩
      Upstream.timeout (S "T") = .err 504
    ∧ analyze_coin ⟨some (S "k"), some (S "e"), S "gpt-4o"⟩ ⟨S "image/png", S "a.png", 1⟩
      (Upstream.resp 503 Json.null) (S "T") = .err 500 :=
  ⟨C7_failure_statuses.1 _ _ _ _ rfl,
   C7_failure_statuses.2.1 _ _ _ _ rfl rfl,
   C7_failure_statuses.2.2.1 _ _ _ rfl rfl,
   C7_failure_statuses.2.2.2 _ _ _ _ _ rfl rfl (by decide)⟩

/-- The backtick character, obtained from a string literal. -/
def btick : Char := (S "`").headD ' '

/-- A needle is a prefix of itself followed by anything. -/
theorem isPre_append_self (n rest : Str) : isPre n (n ++ rest) = true := by
  induction n with
  | nil => rfl
  | cons a as ih => simp [isPre, ih]

/-- If the needle's first character does not occur in `pre`, the first
occurrence of the needle in `pre ++ needle ++ rest` is exactly at the end of
`pre`. -/
theorem splitFirst_append_of_head_not_mem (needle pre rest : Str) (c0 : Char)
    (tail : Str) (hne : needle = c0 :: tail) (hpre : c0 ∉ pre) :
    splitFirst needle (pre ++ needle ++ rest) = some (pre, rest) := by
  induction pre with
  | nil =>
    have hcons : needle ++ rest = c0 :: (tail ++ rest) := by rw [hne]; rfl
    simp only [List.nil_append, hcons]
    rw [splitFirst, ← hcons, isPre_append_self]
    simp [List.drop_left]
  | cons p ps ih =>
    have hp : c0 ≠ p := fun h => hpre (h ▸ List.mem_cons_self p ps)
    have hps : c0 ∉ ps := fun h => hpre (List.mem_cons_of_mem p h)
    have hpre' : isPre needle (p :: (ps ++ needle ++ rest)) = false := by
      rw [hne]
      simp [isPre, Bool.beq_eq_decide_eq, hp]
    show splitFirst needle (p :: (ps ++ needle ++ rest)) = some (p :: ps, rest)
    rw [splitFirst, hpre', ih hps]
    simp

/-- Characterization of a successful single-character search: the text splits
around the first occurrence. -/
theorem splitFirst_single_some (c : Char) (t pre rest : Str)
    (h : splitFirst [c] t = some (pre, rest)) :
    t = pre ++ c :: rest ∧ c ∉ pre := by
  induction t generalizing pre with
  | nil => simp [splitFirst, isPre] at h
  | cons x xs ih =>
    rw [splitFirst] at h
    by_cases hx : c = x
    · subst hx
      have hp : isPre [c] (c :: xs) = true := by simp [isPre]
      rw [hp] at h
      simp only [if_true, List.length_cons, List.length_nil] at h
      simp only [List.drop_succ_cons, List.drop_zero, Option.some.injEq,
        Prod.mk.injEq] at h
      obtain ⟨h1, h2⟩ := h
      subst h1; subst h2
      simp
    · have hp : isPre [c] (x :: xs) = false := by
        simp [isPre, Bool.beq_eq_decide_eq, hx]
      rw [hp] at h
      simp only [Bool.false_eq_true, if_false] at h
      cases hs : splitFirst [c] xs with
      | none => rw [hs] at h; cases h
      | some pr =>
        obtain ⟨p, r⟩ := pr
        rw [hs] at h
        simp only [Option.some.injEq, Prod.mk.injEq] at h
        obtain ⟨h1, h2⟩ := h
        subst h2
        obtain ⟨ht, hm⟩ := ih p hs
        constructor
        · rw [← h1, ht]; rfl
        · rw [← h1]
          intro hmem
          rcases List.mem_cons.mp hmem with h' | h'
          · exact hx h'
          · exact hm h'

/-- A failed single-character search means the character does not occur. -/
theorem splitFirst_single_none (c : Char) (t : Str)
    (h : splitFirst [c] t = none) : c ∉ t := by
  induction t with
  | nil => simp
  | cons x xs ih =>
    rw [splitFirst] at h
    by_cases hx : c = x
    · subst hx
      have : isPre [c] (c :: xs) = true := by simp [isPre]
      rw [this] at h; cases h
    · have : isPre [c] (x :: xs) = false := by
        simp [isPre, Bool.beq_eq_decide_eq, hx]
      rw [this] at h
      cases hs : splitFirst [c] xs with
      | none =>
        intro hmem
        rcases List.mem_cons.mp hmem with h' | h'
        · exact hx h'
        · exact ih hs h'
      | some pr => obtain ⟨p, r⟩ := pr; rw [hs] at h; cases h

/-- The part of a list dropped by `dropWhile` starts with an element
falsifying the predicate, when it is nonempty. -/
theorem dropWhile_head_falsifies (p : Char → Bool) (l : Str)
    (h : l.dropWhile p ≠ []) :
    ∃ x xs, l.dropWhile p = x :: xs ∧ p x = false := by
  induction l with
  | nil => simp [List.dropWhile] at h
  | cons a as ih =>
    rw [List.dropWhile] at h ⊢
    cases hp : p a with
    | true => rw [hp] at h; exact ih h
    | false => exact ⟨a, as, rfl, hp⟩

/-- Splitting a text at its last closing brace: `takeToLastClose` keeps
everything up to and including the last `\x7d`, and the remainder contains
no further `\x7d`. -/
theorem takeToLastClose_decomp (t : Str) (h : rbrace ∈ t) :
    ∃ r, t = takeToLastClose t ++ r ∧ rbrace ∉ r
      ∧ (takeToLastClose t).getLast? = some rbrace := by
  have hrev : rbrace ∈ t.reverse := List.mem_reverse.mpr h
  have hne : t.reverse.dropWhile (fun c => c ≠ rbrace) ≠ [] := by
    intro h0
    have := (List.dropWhile_eq_nil_iff).mp h0 rbrace hrev
    simp at this
  obtain ⟨x, xs, hd, hx⟩ := dropWhile_head_falsifies _ _ hne
  have hxeq : x = rbrace := by
    by_contra hne'
    simp [hne'] at hx
  refine ⟨(t.reverse.takeWhile (fun c => c ≠ rbrace)).reverse, ?_, ?_, ?_⟩
  · have key : takeToLastClose t ++ (t.reverse.takeWhile (fun c => c ≠ rbrace)).reverse
        = t := by
      unfold takeToLastClose
      rw [← List.reverse_append, List.takeWhile_append_dropWhile, List.reverse_reverse]
    exact key.symm
  · intro hmem
    have := List.mem_reverse.mp hmem
    have := List.mem_takeWhile_imp this
    simp at this
  · unfold takeToLastClose
    rw [List.getLast?_reverse, hd, hxeq]
    rfl

/-- If the first occurrence of `c` in a text is preceded by `pre`, then for
any other decomposition around an occurrence of `c`, the part after it is a
suffix of the part after the first occurrence. -/
theorem suffix_of_first_occurrence (c : Char) :
    ∀ (pre rest a b : Str), c ∉ pre → pre ++ c :: rest = a ++ c :: b →
      b <:+ rest := by
  intro pre
  induction pre with
  | nil =>
    intro rest a b _ heq
    cases a with
    | nil =>
      simp only [List.nil_append, List.cons.injEq] at heq
      rw [heq.2]
    | cons x a' =>
      simp only [List.nil_append, List.cons_append, List.cons.injEq] at heq
      rw [heq.2]
      calc b <:+ c :: b := List.suffix_cons c b
        _ <:+ a' ++ c :: b := (List.suffix_append a' (c :: b)).trans (by rfl)
  | cons p ps ih =>
    intro rest a b hmem heq
    have hcp : c ≠ p := fun h => hmem (h ▸ List.mem_cons_self p ps)
    have hcps : c ∉ ps := fun h => hmem (List.mem_cons_of_mem p h)
    cases a with
    | nil =>
      simp only [List.cons_append, List.nil_append, List.cons.injEq] at heq
      exact absurd heq.1.symm hcp
    | cons x a' =>
      simp only [List.cons_append, List.cons.injEq] at heq
      exact ih rest a' b hcps heq.2

/-- A successful brace-span search extracts exactly the substring of the text
from its first opening brace through its last closing brace: nothing before
the span is an opening brace and nothing after it is a closing brace. -/
theorem findBrace_decomp (t span : Str) (h : findBrace t = some span) :
    ∃ a b, t = a ++ span ++ b ∧ lbrace ∉ a ∧ rbrace ∉ b
      ∧ span.head? = some lbrace ∧ span.getLast? = some rbrace := by
  unfold findBrace at h
  cases hs : splitFirst [lbrace] t with
  | none => rw [hs] at h; cases h
  | some pr =>
    obtain ⟨pre, rest⟩ := pr
    rw [hs] at h
    dsimp only at h
    by_cases hc : rest.contains rbrace = true
    · rw [if_pos hc] at h
      have hspan := Option.some.inj h
      subst hspan
      have hmem : rbrace ∈ rest := List.elem_iff.mp hc
      obtain ⟨ht, hpre⟩ := splitFirst_single_some lbrace t pre rest hs
      obtain ⟨r, hrest, hr, hlast⟩ := takeToLastClose_decomp rest hmem
      refine ⟨pre, r, ?_, hpre, hr, rfl, ?_⟩
      · conv_lhs => rw [ht, hrest]
        simp
      · show (lbrace :: takeToLastClose rest).getLast? = some rbrace
        have e : lbrace :: takeToLastClose rest = [lbrace] ++ takeToLastClose rest := rfl
        rw [e, List.getLast?_append, hlast]
        rfl
    · rw [if_neg hc] at h; cases h

/-- A failed brace-span search means no opening brace has a closing brace
anywhere after it. -/
theorem findBrace_none (t : Str) (h : findBrace t = none) :
    ¬ ∃ a b, t = a ++ lbrace :: b ∧ rbrace ∈ b := by
  rintro ⟨a, b, hab, hrb⟩
  unfold findBrace at h
  cases hs : splitFirst [lbrace] t with
  | none =>
    have := splitFirst_single_none lbrace t hs
    rw [hab] at this
    exact this (by simp)
  | some pr =>
    obtain ⟨pre, rest⟩ := pr
    rw [hs] at h
    dsimp only at h
    obtain ⟨ht, hpre⟩ := splitFirst_single_some lbrace t pre rest hs
    by_cases hc : rest.contains rbrace = true
    · rw [if_pos hc] at h; cases h
    · have hsuffix : b <:+ rest :=
        suffix_of_first_occurrence lbrace pre rest a b hpre (ht.symm.trans hab)
      have : rbrace ∈ rest := hsuffix.subset hrb
      exact hc (List.elem_iff.mpr this)

/-- In a text assembled around a tagged fence whose prose and interior are
backtick-free, the Normalizer's tagged-fence search finds exactly that
interior. -/
theorem findJsonFence_decomp (pre mid post : Str) (h1 : btick ∉ pre)
    (h2 : btick ∉ mid) :
    findJsonFence (pre ++ S "```json" ++ mid ++ S "```" ++ post) = some mid := by
  unfold findJsonFence
  have e1 : pre ++ S "```json" ++ mid ++ S "```" ++ post
      = pre ++ S "```json" ++ (mid ++ S "```" ++ post) := by simp
  rw [e1,
    splitFirst_append_of_head_not_mem (S "```json") pre (mid ++ S "```" ++ post)
      btick (S "``json") rfl h1]
  dsimp only
  rw [splitFirst_append_of_head_not_mem (S "```") mid post btick (S "``") rfl h2]

/-- Two objects with different first keys are different. -/
theorem obj_ne_of_first_key (k1 k2 : Str) (v1 v2 : Json)
    (l1 l2 : List (Str × Json)) (h : k1 ≠ k2) :
    Json.obj ((k1, v1) :: l1) ≠ Json.obj ((k2, v2) :: l2) := by
  intro he
  injection he with hl
  injection hl with hp _
  exact h (congrArg Prod.fst hp)

/-- The input of the C3 counterexample: a tagged fence with unparseable
interior, followed by a perfectly good brace-delimited object. -/
def C3text : Str := S "```json bad``` \x7b\"a\": 1\x7d"

/-- C3 counterexample: on `C3text` the tagged fence is found and its interior
fails to parse, and the brace-span step would succeed with `\x7b"a": 1\x7d` —
but `extract_json` returns the raw wrapper: the failure of step 1 is not
followed by trying the later steps, refuting the claimed fall-through. -/
theorem C3_counterexample :
    findJsonFence C3text = some (S " bad")
    ∧ exOk (jsonLoads (pyStrip (S " bad"))) = false
    ∧ findBrace C3text = some (S "\x7b\"a\": 1\x7d")
    ∧ jsonLoads (S "\x7b\"a\": 1\x7d") = .ok (Json.obj [(S "a", Json.num 1 0)])
    ∧ extract_json C3text = rawWrapper C3text
    ∧ rawWrapper C3text ≠ Json.obj [(S "a", Json.num 1 0)] :=
  ⟨rfl, rfl, rfl, rfl, rfl, obj_ne_of_first_key _ _ _ _ _ _ (by decide)⟩

/-- C3 (amended): only the untagged-fence step falls through on a parse
failure; a parse failure in the tagged-fence step or in the brace-span step
escapes to the outer handler and yields the raw wrapper immediately, without
trying the remaining steps. -/
theorem C3_fallthrough_amended :
    (∀ t s, findJsonFence t = some s → exOk (jsonLoads (pyStrip s)) = false →
        extract_json t = rawWrapper t)
    ∧ (∀ t s, findJsonFence t = none → findFence t = some s →
        exOk (jsonLoads (pyStrip s)) = false →
        extract_json t = (match extract_json_step34 t with
                          | .ok v => v
                          | .error _ => rawWrapper t))
    ∧ (∀ t span, findJsonFence t = none → step2Fails t = true →
        findBrace t = some span → exOk (jsonLoads span) = false →
        extract_json t = rawWrapper t) := by
  refine ⟨?_, ?_, ?_⟩
  · intro t s h1 h2
    unfold extract_json extract_json_try
    rw [h1]
    dsimp only
    cases hj : jsonLoads (pyStrip s) with
    | ok v => rw [hj] at h2; simp [exOk] at h2
    | error e => simp [hj]
  · intro t s h1 h2 h3
    unfold extract_json extract_json_try
    rw [h1]
    dsimp only
    rw [h2]
    dsimp only
    cases hj : jsonLoads (pyStrip s) with
    | ok v => rw [hj] at h3; simp [exOk] at h3
    | error e =>
      cases hs : extract_json_step34 t with
      | ok v => simp [hs]
      | error e2 => simp [hs]
  · intro t span h1 h2 h3 h4
    have hs34 : extract_json_step34 t = .error () := by
      unfold extract_json_step34
      rw [h3]
      dsimp only
      cases hj : jsonLoads span with
      | ok v => rw [hj] at h4; simp [exOk] at h4
      | error e => simp [hj]
    unfold extract_json extract_json_try
    rw [h1]
    dsimp only
    cases hg : findFence t with
    | none => simp [hs34]
    | some s =>
      simp only [step2Fails, hg] at h2
      dsimp only
      cases hj : jsonLoads (pyStrip s) with
      | ok v => rw [hj] at h2; simp [exOk] at h2
      | error e => simp [hj, hs34]

/-- Witness for the amended C3, exercising each of its three cases on a
concrete input. -/
theorem C3_fallthrough_amended_witness :
    extract_json (S "```json bad``` ok") = rawWrapper (S "```json bad``` ok")
    ∧ extract_json (S "``` bad ``` \x7b\"a\": 1\x7d")
      = (match extract_json_step34 (S "``` bad ``` \x7b\"a\": 1\x7d") with
         | .ok v => v
         | .error _ => rawWrapper (S "``` bad ``` \x7b\"a\": 1\x7d"))
    ∧ extract_json (S "x \x7b y \x7d z") = rawWrapper (S "x \x7b y \x7d z") :=
  ⟨C3_fallthrough_amended.1 (S "```json bad``` ok") (S " bad") rfl rfl,
   C3_fallthrough_amended.2.1 (S "``` bad ``` \x7b\"a\": 1\x7d") (S " bad ") rfl rfl rfl,
   C3_fallthrough_amended.2.2 (S "x \x7b y \x7d z") (S "\x7b y \x7d") rfl rfl rfl rfl⟩

/-- The input of the C4 counterexample: the prose before the valid tagged
fence itself contains an (unparseable) tagged fence. -/
def C4text : Str := S "```json x``` ```json \x7b\x7d ```"

/-- C4 counterexample: `C4text` contains a markdown fence tagged json whose
trimmed interior is the valid JSON object `\x7b\x7d`, yet `extract_json`
returns the raw wrapper, not that parsed object — the surrounding prose
(which contains fence markers) does matter, refuting the claim as stated. -/
theorem C4_counterexample :
    C4text = S "```json x``` " ++ S "```json" ++ S " \x7b\x7d " ++ S "```" ++ S ""
    ∧ jsonLoads (pyStrip (S " \x7b\x7d ")) = .ok (Json.obj [])
    ∧ extract_json C4text = rawWrapper C4text
    ∧ rawWrapper C4text ≠ Json.obj [] := by
  refine ⟨rfl, rfl, rfl, ?_⟩
  intro h
  injection h with hl
  cases hl

/-- C4 (amended): `extract_json` returns exactly the object parsed from the
*first* tagged fence (leftmost occurrence of the opener, interior up to the
next closing backticks) whenever that interior's trimmed content is valid
JSON; in particular, for any text `pre ++ fence(mid) ++ post` in which `pre`
and `mid` are backtick-free, the result is the parse of `mid`, regardless of
the surrounding prose. -/
theorem C4_tagged_fence_amended :
    (∀ t s v, findJsonFence t = some s → jsonLoads (pyStrip s) = .ok v →
        extract_json t = v)
    ∧ (∀ (pre mid post : Str) (v : Json), btick ∉ pre → btick ∉ mid →
        jsonLoads (pyStrip mid) = .ok v →
        extract_json (pre ++ S "```json" ++ mid ++ S "```" ++ post) = v) := by
  have part1 : ∀ t s v, findJsonFence t = some s → jsonLoads (pyStrip s) = .ok v →
      extract_json t = v := by
    intro t s v h1 h2
    unfold extract_json extract_json_try
    rw [h1]
    dsimp only
    rw [h2]
  refine ⟨part1, ?_⟩
  intro pre mid post v h1 h2 h3
  exact part1 _ mid v (findJsonFence_decomp pre mid post h1 h2) h3

/-- Witness for the amended C4: prose on both sides of the fence. -/
theorem C4_tagged_fence_amended_witness :
    extract_json (S "Analysis: " ++ S "```json" ++ S " \x7b\"a\": 1\x7d " ++ S "```"
        ++ S " done") = Json.obj [(S "a", Json.num 1 0)] :=
  C4_tagged_fence_amended.2 (S "Analysis: ") (S " \x7b\"a\": 1\x7d ") (S " done")
    (Json.obj [(S "a", Json.num 1 0)]) (by decide) (by decide) rfl

/-- C5: the brace-span step's candidate is the greedy non-nesting-aware span
from the first opening brace of the text to its last closing brace — whenever
the search succeeds the text decomposes as `a ++ span ++ b` with no opening
brace in `a` and no closing brace in `b`, and the span starts with `\x7b` and
ends with `\x7d`; when it fails, no opening brace has a closing brace after
it; and on any text where the Normalizer reaches step 3, `extract_json`
parses exactly that span (falling to the raw wrapper if the span is not
valid JSON). -/
theorem C5_greedy_brace_span :
    (∀ t span, findBrace t = some span →
        ∃ a b, t = a ++ span ++ b ∧ lbrace ∉ a ∧ rbrace ∉ b
          ∧ span.head? = some lbrace ∧ span.getLast? = some rbrace)
    ∧ (∀ t, findBrace t = none → ¬ ∃ a b, t = a ++ lbrace :: b ∧ rbrace ∈ b)
    ∧ (∀ t span, findJsonFence t = none → step2Fails t = true →
        findBrace t = some span →
        extract_json t = (match jsonLoads span with
                          | .ok v => v
                          | .error _ => rawWrapper t)) := by
  refine ⟨findBrace_decomp, findBrace_none, ?_⟩
  intro t span h1 h2 h3
  have hs34 : extract_json_step34 t = jsonLoads span := by
    unfold extract_json_step34
    rw [h3]
  unfold extract_json extract_json_try
  rw [h1]
  dsimp only
  cases hg : findFence t with
  | none =>
    dsimp only
    rw [hs34]
  | some s =>
    simp only [step2Fails, hg] at h2
    dsimp only
    cases hj : jsonLoads (pyStrip s) with
    | ok v => rw [hj] at h2; simp [exOk] at h2
    | error e =>
      dsimp only
      rw [hs34]

/-- Witness for C5: a nested object is swallowed whole (and parses), while
two separate objects are swallowed into one invalid greedy span (and fall to
the raw wrapper). -/
theorem C5_greedy_brace_span_witness :
    extract_json (S "coin \x7b\"a\": \x7b\"b\": 1\x7d\x7d tail")
      = (match jsonLoads (S "\x7b\"a\": \x7b\"b\": 1\x7d\x7d") with
         | .ok v => v
         | .error _ => rawWrapper (S "coin \x7b\"a\": \x7b\"b\": 1\x7d\x7d tail"))
    ∧ extract_json (S "x \x7b\"a\": 1\x7d y \x7b\"b\": 2\x7d")
      = (match jsonLoads (S "\x7b\"a\": 1\x7d y \x7b\"b\": 2\x7d") with
         | .ok v => v
         | .error _ => rawWrapper (S "x \x7b\"a\": 1\x7d y \x7b\"b\": 2\x7d")) :=
  ⟨C5_greedy_brace_span.2.2 (S "coin \x7b\"a\": \x7b\"b\": 1\x7d\x7d tail")
      (S "\x7b\"a\": \x7b\"b\": 1\x7d\x7d") rfl rfl rfl,
   C5_greedy_brace_span.2.2 (S "x \x7b\"a\": 1\x7d y \x7b\"b\": 2\x7d")
      (S "\x7b\"a\": 1\x7d y \x7b\"b\": 2\x7d") rfl rfl rfl⟩

/-- Looking up the upserted key yields the new value. -/
theorem objGet?_objUpsert_self (l : List (Str × Json)) (k : Str) (v : Json) :
    objGet? (objUpsert l k v) k = some v := by
  induction l with
  | nil => simp [objUpsert, objGet?]
  | cons kv t ih =>
    obtain ⟨k', v'⟩ := kv
    by_cases h : k' = k
    · subst h; simp [objUpsert, objGet?]
    · simp [objUpsert, objGet?, h, ih]

/-- Looking up a different key is unaffected by an upsert. -/
theorem objGet?_objUpsert_ne (l : List (Str × Json)) (k k' : Str) (v : Json)
    (h : k' ≠ k) : objGet? (objUpsert l k v) k' = objGet? l k' := by
  induction l with
  | nil => simp [objUpsert, objGet?, Ne.symm h]
  | cons kv t ih =>
    obtain ⟨k0, v0⟩ := kv
    by_cases h0 : k0 = k
    · subst h0; simp [objUpsert, objGet?, Ne.symm h]
    · simp [objUpsert, objGet?, h0, ih]

/-- An upsert never removes a present key. -/
theorem objGet?_objUpsert_isSome (l : List (Str × Json)) (k f : Str) (v : Json)
    (h : (objGet? l k).isSome = true) :
    (objGet? (objUpsert l f v) k).isSome = true := by
  by_cases hk : k = f
  · subst hk; simp [objGet?_objUpsert_self]
  · rw [objGet?_objUpsert_ne l f k v hk]; exact h

/-- `setBasicField` on a report with the nested path: it succeeds, keeps the
path, sets the requested field and leaves every other basic field alone. -/
theorem setBasicField_spec (resp : Json) (f : Str) (v : Json)
    (h : hasBasicPath resp = true) :
    ∃ resp', setBasicField resp f v = .ok resp'
      ∧ hasBasicPath resp' = true
      ∧ getBasic? resp' f = some v
      ∧ ∀ f', f' ≠ f → getBasic? resp' f' = getBasic? resp f' := by
  cases resp with
  | null => simp [hasBasicPath] at h
  | bool b => simp [hasBasicPath] at h
  | num m e => simp [hasBasicPath] at h
  | str s => simp [hasBasicPath] at h
  | arr a => simp [hasBasicPath] at h
  | obj l =>
    cases hca : objGet? l (S "coin_analysis") with
    | none => simp [hasBasicPath, hca] at h
    | some jca =>
      cases jca with
      | null => simp [hasBasicPath, hca] at h
      | bool b => simp [hasBasicPath, hca] at h
      | num m e => simp [hasBasicPath, hca] at h
      | str s => simp [hasBasicPath, hca] at h
      | arr a => simp [hasBasicPath, hca] at h
      | obj ca =>
        cases hbi : objGet? ca (S "basic_info") with
        | none => simp [hasBasicPath, hca, hbi] at h
        | some jbi =>
          cases jbi with
          | null => simp [hasBasicPath, hca, hbi] at h
          | bool b => simp [hasBasicPath, hca, hbi] at h
          | num m e => simp [hasBasicPath, hca, hbi] at h
          | str s => simp [hasBasicPath, hca, hbi] at h
          | arr a => simp [hasBasicPath, hca, hbi] at h
          | obj bi =>
            refine ⟨Json.obj (objUpsert l (S "coin_analysis")
              (Json.obj (objUpsert ca (S "basic_info")
                (Json.obj (objUpsert bi f v))))), ?_, ?_, ?_, ?_⟩
            · simp [setBasicField, hca, hbi]
            · simp [hasBasicPath, objGet?_objUpsert_self]
            · simp [getBasic?, objGet?_objUpsert_self]
            · intro f' hf'
              simp [getBasic?, objGet?_objUpsert_self, hca, hbi,
                objGet?_objUpsert_ne bi f f' v hf']

/-- A well-formed report has the nested `coin_analysis → basic_info` path. -/
theorem wellFormed_hasBasicPath (r : Json) (h : wellFormedReport r = true) :
    hasBasicPath r = true := by
  cases r with
  | null => simp [wellFormedReport] at h
  | bool b => simp [wellFormedReport] at h
  | num m e => simp [wellFormedReport] at h
  | str s => simp [wellFormedReport] at h
  | arr a => simp [wellFormedReport] at h
  | obj l =>
    unfold wellFormedReport at h
    simp only [Bool.and_eq_true] at h
    obtain ⟨⟨h1, h2⟩, h3⟩ := h
    unfold hasBasicPath
    cases hca : objGet? l (S "coin_analysis") with
    | none => rw [hca] at h2; simp at h2
    | some jca =>
      rw [hca] at h2
      cases jca with
      | null => simp at h2
      | bool b => simp at h2
      | num m e => simp at h2
      | str s => simp at h2
      | arr a => simp at h2
      | obj ca =>
        simp only [Bool.and_eq_true] at h2
        obtain ⟨⟨h21, h22⟩, h23⟩ := h2
        cases hbi : objGet? ca (S "basic_info") with
        | none => rw [hbi] at h21; simp at h21
        | some jbi =>
          rw [hbi] at h21
          cases jbi with
          | null => simp at h21
          | bool b => simp at h21
          | num m e => simp at h21
          | str s => simp at h21
          | arr a => simp at h21
          | obj bi => simp [hca, hbi]

/-- `setBasicField` preserves well-formedness of the report. -/
theorem setBasicField_wellFormed (resp resp' : Json) (f : Str) (v : Json)
    (hw : wellFormedReport resp = true)
    (heq : setBasicField resp f v = .ok resp') :
    wellFormedReport resp' = true := by
  cases resp with
  | null => simp [wellFormedReport] at hw
  | bool b => simp [wellFormedReport] at hw
  | num m e => simp [wellFormedReport] at hw
  | str s => simp [wellFormedReport] at hw
  | arr a => simp [wellFormedReport] at hw
  | obj l =>
    unfold wellFormedReport at hw
    simp only [Bool.and_eq_true] at hw
    obtain ⟨⟨h1, h2⟩, h3⟩ := hw
    cases hca : objGet? l (S "coin_analysis") with
    | none => rw [hca] at h2; simp at h2
    | some jca =>
      rw [hca] at h2
      cases jca with
      | null => simp at h2
      | bool b => simp at h2
      | num m e => simp at h2
      | str s => simp at h2
      | arr a => simp at h2
      | obj ca =>
        simp only [Bool.and_eq_true] at h2
        obtain ⟨⟨h21, h22⟩, h23⟩ := h2
        cases hbi : objGet? ca (S "basic_info") with
        | none => rw [hbi] at h21; simp at h21
        | some jbi =>
          rw [hbi] at h21
          cases jbi with
          | null => simp at h21
          | bool b => simp at h21
          | num m e => simp at h21
          | str s => simp at h21
          | arr a => simp at h21
          | obj bi =>
            unfold setBasicField at heq
            dsimp only at heq
            rw [hca] at heq
            dsimp only at heq
            rw [hbi] at heq
            dsimp only at heq
            have hr := Except.ok.inj heq
            subst hr
            unfold wellFormedReport
            simp only [Bool.and_eq_true]
            refine ⟨⟨?_, ?_⟩, ?_⟩
            · simp only [hasKeys, List.all_cons, List.all_nil,
                Bool.and_eq_true] at h1 ⊢
              exact ⟨objGet?_objUpsert_isSome l _ _ _ h1.1,
                objGet?_objUpsert_isSome l _ _ _ h1.2.1, trivial⟩
            · rw [objGet?_objUpsert_self]
              simp only [Bool.and_eq_true]
              refine ⟨⟨?_, ?_⟩, ?_⟩
              · rw [objGet?_objUpsert_self]
                simp only [hasKeys, List.all_cons, List.all_nil,
                  Bool.and_eq_true] at h21 ⊢
                exact ⟨objGet?_objUpsert_isSome bi _ _ _ h21.1,
                  objGet?_objUpsert_isSome bi _ _ _ h21.2.1,
                  objGet?_objUpsert_isSome bi _ _ _ h21.2.2.1,
                  objGet?_objUpsert_isSome bi _ _ _ h21.2.2.2.1, trivial⟩
              · rw [objGet?_objUpsert_ne ca _ _ _ (by decide)]
                exact h22
              · simp only [hasKeys, List.all_cons, List.all_nil,
                  Bool.and_eq_true] at h23 ⊢
                exact ⟨objGet?_objUpsert_isSome ca _ _ _ h23.1,
                  objGet?_objUpsert_isSome ca _ _ _ h23.2.1,
                  objGet?_objUpsert_isSome ca _ _ _ h23.2.2.1, trivial⟩
            · rw [objGet?_objUpsert_ne l _ _ _ (by decide)]
              exact h3

/-- On a report with the nested path, the Text-Pattern Fallback always
succeeds, keeps the path, and its composition field is exactly: unchanged
when no composition entry matches, and the comma-join of all matching
entries (in table order) when some do. -/
theorem enhance_ok (raw : Str) (resp : Json) (h : hasBasicPath resp = true) :
    ∃ e, enhance_with_text_analysis raw resp = .ok e
      ∧ hasBasicPath e = true
      ∧ getBasic? e (S "composition") =
          (match foundCompositions (pyLower raw) with
           | [] => getBasic? resp (S "composition")
           | f :: fs => some (.str (joinSep (S ", ") (f :: fs)))) := by
  obtain ⟨r1, hr1, hb1, hc1⟩ : ∃ r1,
      (match firstMatch (pyLower raw) country_patterns with
       | some c => setBasicField resp (S "country") (Json.str (pyTitle c))
       | none => Except.ok resp) = Except.ok r1
      ∧ hasBasicPath r1 = true
      ∧ getBasic? r1 (S "composition") = getBasic? resp (S "composition") := by
    cases hm : firstMatch (pyLower raw) country_patterns with
    | none => exact ⟨resp, rfl, h, rfl⟩
    | some c =>
      obtain ⟨r1, e1, b1, _, ne1⟩ :=
        setBasicField_spec resp (S "country") (Json.str (pyTitle c)) h
      exact ⟨r1, e1, b1, ne1 _ (by decide)⟩
  obtain ⟨r2, hr2, hb2, hc2⟩ : ∃ r2,
      (match firstMatch (pyLower raw) denomination_patterns with
       | some d => setBasicField r1 (S "denomination") (Json.str d)
       | none => Except.ok r1) = Except.ok r2
      ∧ hasBasicPath r2 = true
      ∧ getBasic? r2 (S "composition") = getBasic? r1 (S "composition") := by
    cases hm : firstMatch (pyLower raw) denomination_patterns with
    | none => exact ⟨r1, rfl, hb1, rfl⟩
    | some d =>
      obtain ⟨r2, e2, b2, _, ne2⟩ :=
        setBasicField_spec r1 (S "denomination") (Json.str d) hb1
      exact ⟨r2, e2, b2, ne2 _ (by decide)⟩
  cases hf : foundCompositions (pyLower raw) with
  | nil =>
    refine ⟨r2, ?_, hb2, ?_⟩
    · unfold enhance_with_text_analysis
      rw [hr1]
      dsimp only
      rw [hr2]
      dsimp only
      rw [hf]
    · rw [hc2, hc1]
  | cons f fs =>
    obtain ⟨e, he, hbe, hge, _⟩ := setBasicField_spec r2 (S "composition")
      (Json.str (joinSep (S ", ") (f :: fs))) hb2
    refine ⟨e, ?_, hbe, hge⟩
    unfold enhance_with_text_analysis
    rw [hr1]
    dsimp only
    rw [hr2]
    dsimp only
    rw [hf]
    exact he

/-- The Text-Pattern Fallback preserves well-formedness of the report. -/
theorem enhance_wellFormed (raw : Str) (resp e : Json)
    (hw : wellFormedReport resp = true)
    (he : enhance_with_text_analysis raw resp = .ok e) :
    wellFormedReport e = true := by
  unfold enhance_with_text_analysis at he
  cases h1 : (match firstMatch (pyLower raw) country_patterns with
      | some c => setBasicField resp (S "country") (Json.str (pyTitle c))
      | none => Except.ok resp) with
  | error e1 => rw [h1] at he; cases he
  | ok r1 =>
    rw [h1] at he
    dsimp only at he
    have hw1 : wellFormedReport r1 = true := by
      cases hm : firstMatch (pyLower raw) country_patterns with
      | none =>
        rw [hm] at h1
        exact (Except.ok.inj h1) ▸ hw
      | some c =>
        rw [hm] at h1
        exact setBasicField_wellFormed resp r1 _ _ hw h1
    cases h2 : (match firstMatch (pyLower raw) denomination_patterns with
        | some d => setBasicField r1 (S "denomination") (Json.str d)
        | none => Except.ok r1) with
    | error e2 => rw [h2] at he; cases he
    | ok r2 =>
      rw [h2] at he
      dsimp only at he
      have hw2 : wellFormedReport r2 = true := by
        cases hm : firstMatch (pyLower raw) denomination_patterns with
        | none =>
          rw [hm] at h2
          exact (Except.ok.inj h2) ▸ hw1
        | some d =>
          rw [hm] at h2
          exact setBasicField_wellFormed r1 r2 _ _ hw1 h2
      cases hf : foundCompositions (pyLower raw) with
      | nil =>
        rw [hf] at he
        exact (Except.ok.inj he) ▸ hw2
      | cons f fs =>
        rw [hf] at he
        exact setBasicField_wellFormed r2 e _ _ hw2 he

/-- A comma-join starts with its first element. -/
theorem joinSep_head_decomp (sep a : Str) (ys : List Str) :
    ∃ m, joinSep sep (a :: ys) = a ++ m := by
  cases ys with
  | nil => exact ⟨[], by simp [joinSep]⟩
  | cons y ys' =>
    exact ⟨sep ++ joinSep sep (y :: ys'), by simp [joinSep, List.append_assoc]⟩

/-- In a comma-join, the first element appears before any later element. -/
theorem joinSep_mid_decomp (sep b : Str) (zs : List Str) :
    ∀ (ys : List Str) (a : Str),
      ∃ m s, joinSep sep (a :: (ys ++ b :: zs)) = a ++ m ++ b ++ s := by
  intro ys
  induction ys with
  | nil =>
    intro a
    obtain ⟨m, hm⟩ := joinSep_head_decomp sep b zs
    refine ⟨sep, m, ?_⟩
    show a ++ sep ++ joinSep sep (b :: zs) = a ++ sep ++ b ++ m
    rw [hm]
    simp [List.append_assoc]
  | cons y ys' ih =>
    intro a
    obtain ⟨m, s, hms⟩ := ih y
    refine ⟨sep ++ y ++ m, s, ?_⟩
    show a ++ sep ++ joinSep sep (y :: (ys' ++ b :: zs)) = a ++ (sep ++ y ++ m) ++ b ++ s
    rw [hms]
    simp [List.append_assoc]

/-- When the lowered text matches both the copper and the zinc entries of the
composition table, the collected matches start with "copper" and contain
"zinc" later, in table order. -/
theorem foundCompositions_copper_zinc (lower : Str)
    (hc : containsSub (S "copper") lower = true)
    (hz : containsSub (S "zinc") lower = true) :
    ∃ ys zs, foundCompositions lower = S "copper" :: (ys ++ S "zinc" :: zs) := by
  have htab : composition_patterns
      = [(S "copper", [S "copper", S "cu"])]
        ++ ([(S "bronze", [S "bronze"]), (S "brass", [S "brass"]),
             (S "silver", [S "silver", S "ag"]), (S "gold", [S "gold", S "au"]),
             (S "nickel", [S "nickel", S "ni"])]
        ++ ([(S "zinc", [S "zinc", S "zn"])]
        ++ [(S "aluminum", [S "aluminum", S "aluminium", S "al"]),
            (S "steel", [S "steel", S "iron"])])) := rfl
  have hcop : anyPatternIn lower [S "copper", S "cu"] = true := by
    simp [anyPatternIn, hc]
  have hzin : anyPatternIn lower [S "zinc", S "zn"] = true := by
    simp [anyPatternIn, hz]
  refine ⟨(List.filter (fun e => anyPatternIn lower e.2)
      [(S "bronze", [S "bronze"]), (S "brass", [S "brass"]),
       (S "silver", [S "silver", S "ag"]), (S "gold", [S "gold", S "au"]),
       (S "nickel", [S "nickel", S "ni"])]).map Prod.fst,
    (List.filter (fun e => anyPatternIn lower e.2)
      [(S "aluminum", [S "aluminum", S "aluminium", S "al"]),
       (S "steel", [S "steel", S "iron"])]).map Prod.fst, ?_⟩
  unfold foundCompositions
  rw [htab, List.filter_append, List.filter_append, List.filter_append]
  have h1 : List.filter (fun e => anyPatternIn lower e.2)
      [(S "copper", [S "copper", S "cu"])] = [(S "copper", [S "copper", S "cu"])] := by
    simp [List.filter, hcop]
  have h2 : List.filter (fun e => anyPatternIn lower e.2)
      [(S "zinc", [S "zinc", S "zn"])] = [(S "zinc", [S "zinc", S "zn"])] := by
    simp [List.filter, hzin]
  rw [h1, h2]
  simp

/-- Whether the top-level `metadata` key exists and is a dict (the only case
in which the trust-the-model path survives its metadata assignments). -/
def hasDictMetadata (l : List (Str × Json)) : Bool :=
  match objGet? l (S "metadata") with
  | some (.obj _) => true
  | _ => false

/-- Completion processing when the completion parses directly to a dict
without "coin_analysis": the structured report is built, and the text
fallback runs exactly when both resolved fields read "unknown". -/
theorem processCompletion_dict_noCA (raw d fn : Str) (sz : Nat) (now : Str)
    (l : List (Str × Json)) (hok : jsonLoads raw = .ok (Json.obj l))
    (hca : objGet? l (S "coin_analysis") = none) :
    ∃ b, create_beautiful_response (Json.obj l) d fn sz now = .ok b
      ∧ processCompletion raw d fn sz now
          = (if isUnknownField b (S "country") && isUnknownField b (S "denomination")
             then match enhance_with_text_analysis raw b with
                  | .ok e => .ok e
                  | .error _ => .err 500
             else .ok b) := by
  refine ⟨_, rfl, ?_⟩
  unfold processCompletion
  rw [hok]
  dsimp only
  rw [hca]
  dsimp only [Option.isSome]
  rw [if_neg (by simp)]
  rfl

/-- Completion processing when the direct parse fails: the Normalizer's
result is shaped, and the text fallback is never consulted. -/
theorem processCompletion_parse_error (raw d fn : Str) (sz : Nat) (now : Str)
    (e0 : Unit) (herr : jsonLoads raw = .error e0) :
    processCompletion raw d fn sz now
      = (match create_beautiful_response (extract_json raw) d fn sz now with
         | .ok b => .ok b
         | .error _ => .err 500) := by
  unfold processCompletion
  rw [herr]
  dsimp only
  cases hc : create_beautiful_response (extract_json raw) d fn sz now with
  | ok b => simp [hc]
  | error e1 => simp [hc]

/-- Completion processing on the trust-the-model path without a dict-valued
`metadata` member: the metadata assignment raises and the request ends in a
500. -/
theorem processCompletion_trust_noMetadata (raw d fn : Str) (sz : Nat)
    (now : Str) (l : List (Str × Json)) (hok : jsonLoads raw = .ok (Json.obj l))
    (hca : (objGet? l (S "coin_analysis")).isSome = true)
    (hmd : hasDictMetadata l = false) :
    processCompletion raw d fn sz now = .err 500 := by
  unfold processCompletion
  rw [hok]
  dsimp only
  rw [if_pos hca]
  unfold hasDictMetadata at hmd
  cases hm : objGet? l (S "metadata") with
  | none => rfl
  | some jm =>
    rw [hm] at hmd
    cases jm with
    | null => rfl
    | bool b => rfl
    | num m e => rfl
    | str s => rfl
    | arr a => rfl
    | obj m => simp at hmd

/-- The structured response builder on a dict yields a well-formed report. -/
theorem create_beautiful_wellFormed (l : List (Str × Json)) (d fn : Str)
    (sz : Nat) (now : Str) (b : Json)
    (h : create_beautiful_response (Json.obj l) d fn sz now = .ok b) :
    wellFormedReport b = true := by
  have hb := Except.ok.inj h
  subst hb
  rfl

/-- C9: in the fallback's composition pass all matching metal/alloy entries
are collected (not just the first) and joined with ", " into the composition
field, overwriting any prior value, in table order: on any report carrying
the nested path, the fallback succeeds; its composition field is unchanged
when no entry matches and equals the comma-join of all matching canonical
names otherwise; and whenever the lowered text contains both "copper" and
"zinc" (in either order) the resulting composition has "copper" before
"zinc". -/
theorem C9_composition_collects_all :
    ∀ (raw : Str) (resp : Json), hasBasicPath resp = true →
      ∃ e, enhance_with_text_analysis raw resp = .ok e
        ∧ (foundCompositions (pyLower raw) = [] →
            getBasic? e (S "composition") = getBasic? resp (S "composition"))
        ∧ (∀ f fs, foundCompositions (pyLower raw) = f :: fs →
            getBasic? e (S "composition")
              = some (.str (joinSep (S ", ") (f :: fs))))
        ∧ (containsSub (S "copper") (pyLower raw) = true →
           containsSub (S "zinc") (pyLower raw) = true →
           ∃ m s, getBasic? e (S "composition")
              = some (.str (S "copper" ++ m ++ S "zinc" ++ s))) := by
  intro raw resp h
  obtain ⟨e, he, _, hcomp⟩ := enhance_ok raw resp h
  refine ⟨e, he, ?_, ?_, ?_⟩
  · intro hf; rw [hf] at hcomp; exact hcomp
  · intro f fs hf; rw [hf] at hcomp; exact hcomp
  · intro hc hz
    obtain ⟨ys, zs, hfound⟩ := foundCompositions_copper_zinc (pyLower raw) hc hz
    obtain ⟨m, s, hjoin⟩ := joinSep_mid_decomp (S ", ") (S "zinc") zs ys (S "copper")
    rw [hfound] at hcomp
    dsimp only at hcomp
    exact ⟨m, s, by rw [hcomp, hjoin]⟩

/-- Witness for C9, on a text naming zinc before copper (the join still lists
copper first, by table order) over a minimal report with the nested path. -/
theorem C9_composition_collects_all_witness :
    ∃ e, enhance_with_text_analysis (S "struck from zinc over a copper core")
        (Json.obj [(S "coin_analysis", Json.obj [(S "basic_info",
          Json.obj [(S "composition", Json.str (S "unknown"))])])]) = .ok e
      ∧ (foundCompositions (pyLower (S "struck from zinc over a copper core")) = [] →
          getBasic? e (S "composition")
            = getBasic? (Json.obj [(S "coin_analysis", Json.obj [(S "basic_info",
                Json.obj [(S "composition", Json.str (S "unknown"))])])])
                (S "composition"))
      ∧ (∀ f fs,
          foundCompositions (pyLower (S "struck from zinc over a copper core")) = f :: fs →
          getBasic? e (S "composition")
            = some (.str (joinSep (S ", ") (f :: fs))))
      ∧ (containsSub (S "copper") (pyLower (S "struck from zinc over a copper core")) = true →
         containsSub (S "zinc") (pyLower (S "struck from zinc over a copper core")) = true →
         ∃ m s, getBasic? e (S "composition")
            = some (.str (S "copper" ++ m ++ S "zinc" ++ s))) :=
  C9_composition_collects_all (S "struck from zinc over a copper core")
    (Json.obj [(S "coin_analysis", Json.obj [(S "basic_info",
      Json.obj [(S "composition", Json.str (S "unknown"))])])]) rfl

/-- The completion text of the C8 counterexample: plain prose that fails
every JSON parse but matches the country and denomination keyword tables. -/
def C8raw : Str := S "This is a French Republic coin, 1 euro"

/-- The report the endpoint actually produces for `C8raw`. -/
def C8rep : Json :=
  match processCompletion C8raw (S "gpt-4o") (S "coin.jpg") 3 (S "T") with
  | .ok r => r
  | .err _ => Json.null

/-- C8 counterexample: for the completion `C8raw` the structured report
leaves both country and denomination "unknown" and the keyword tables match
the text ("french", "1 euro"), yet the endpoint returns that report
unchanged — the fallback is not invoked on the Normalizer path, refuting
"whenever both resolved fields are unknown the raw text is re-scanned". -/
theorem C8_counterexample :
    processCompletion C8raw (S "gpt-4o") (S "coin.jpg") 3 (S "T") = .ok C8rep
    ∧ isUnknownField C8rep (S "country") = true
    ∧ isUnknownField C8rep (S "denomination") = true
    ∧ (match enhance_with_text_analysis C8raw C8rep with
       | .ok e => getBasic? e (S "country") = some (Json.str (S "France"))
                  ∧ getBasic? e (S "denomination") = some (Json.str (S "1 euro"))
       | .error _ => False)
    ∧ getBasic? C8rep (S "country") = some (Json.str (S "unknown")) :=
  ⟨rfl, rfl, rfl, ⟨rfl, rfl⟩, rfl⟩

/-- C8 (amended): the Text-Pattern Fallback runs exactly when the completion
parses directly as a dict without "coin_analysis" and the structured report
resolves both country and denomination to "unknown"; when either field
resolves, the structured report is returned untouched, and on the Normalizer
path (direct parse failed) the fallback is never invoked, even if both
fields are "unknown". -/
theorem C8_fallback_condition_amended :
    ∀ (raw d fn : Str) (sz : Nat) (now : Str),
      (∀ l, jsonLoads raw = .ok (Json.obj l) →
        objGet? l (S "coin_analysis") = none →
        ∃ b, create_beautiful_response (Json.obj l) d fn sz now = .ok b
          ∧ ((isUnknownField b (S "country") && isUnknownField b (S "denomination"))
                = true →
              processCompletion raw d fn sz now =
                (match enhance_with_text_analysis raw b with
                 | .ok e => .ok e
                 | .error _ => .err 500))
          ∧ ((isUnknownField b (S "country") && isUnknownField b (S "denomination"))
                = false →
              processCompletion raw d fn sz now = .ok b))
      ∧ (∀ e0, jsonLoads raw = .error e0 →
          processCompletion raw d fn sz now =
            (match create_beautiful_response (extract_json raw) d fn sz now with
             | .ok b => .ok b
             | .error _ => .err 500)) := by
  intro raw d fn sz now
  constructor
  · intro l hok hca
    obtain ⟨b, hb, hpc⟩ := processCompletion_dict_noCA raw d fn sz now l hok hca
    refine ⟨b, hb, ?_, ?_⟩
    · intro hcond
      rw [hpc, if_pos hcond]
    · intro hcond
      rw [hpc, if_neg (by simp [hcond])]
  · intro e0 herr
    exact processCompletion_parse_error raw d fn sz now e0 herr

/-- Witness for the amended C8: a dict completion with no usable fields goes
through the fallback branch, and a prose completion takes the Normalizer
path. -/
theorem C8_fallback_condition_amended_witness :
    (∃ b, create_beautiful_response (Json.obj [(S "foo", Json.num 1 0)])
        (S "gpt-4o") (S "c.jpg") 3 (S "T") = .ok b
      ∧ ((isUnknownField b (S "country") && isUnknownField b (S "denomination"))
            = true →
          processCompletion (S "\x7b\"foo\": 1\x7d") (S "gpt-4o") (S "c.jpg") 3 (S "T") =
            (match enhance_with_text_analysis (S "\x7b\"foo\": 1\x7d") b with
             | .ok e => .ok e
             | .error _ => .err 500))
      ∧ ((isUnknownField b (S "country") && isUnknownField b (S "denomination"))
            = false →
          processCompletion (S "\x7b\"foo\": 1\x7d") (S "gpt-4o") (S "c.jpg") 3 (S "T")
            = .ok b))
    ∧ processCompletion (S "no json at all") (S "gpt-4o") (S "c.jpg") 3 (S "T") =
        (match create_beautiful_response (extract_json (S "no json at all"))
            (S "gpt-4o") (S "c.jpg") 3 (S "T") with
         | .ok b => .ok b
         | .error _ => .err 500) :=
  ⟨(C8_fallback_condition_amended (S "\x7b\"foo\": 1\x7d") (S "gpt-4o") (S "c.jpg")
      3 (S "T")).1 [(S "foo", Json.num 1 0)] rfl rfl,
   (C8_fallback_condition_amended (S "no json at all") (S "gpt-4o") (S "c.jpg")
      3 (S "T")).2 () rfl⟩

/-- The structured response builder never fails on a dict. -/
theorem create_beautiful_ok (l : List (Str × Json)) (d fn : Str) (sz : Nat)
    (now : Str) :
    ∃ b, create_beautiful_response (Json.obj l) d fn sz now = .ok b := ⟨_, rfl⟩

/-- On a configured service, an image upload and a 200 upstream response with
a well-formed envelope, `/analyze` is the completion-processing pipeline. -/
theorem analyze_coin_200 (cfg : Config) (up : Upload) (body : Json)
    (now raw : Str) (h1 : configured cfg = true)
    (h2 : isPre (S "image/") up.content_type = true)
    (h3 : getContent body = .ok raw) :
    analyze_coin cfg up (Upstream.resp 200 body) now
      = processCompletion raw cfg.deployment up.filename up.size now := by
  simp [analyze_coin, h1, h2, h3]

/-- C1 (amended): for a successful upstream call, the endpoint returns a 200
with a well-formed CoinReport (every field present, unresolved fields left at
the resolver's sentinels) whenever the parsed analysis is a dict without
"coin_analysis" — whether the completion parsed directly or through the
Normalizer (including its `\x7b"raw": text\x7d` fallback, which is such a
dict).  On the trust-the-model path the model's dict is returned wholesale
instead, and when its "metadata" member is missing or not a dict the
request fails with a 500 rather than producing a report. -/
theorem C1_wellformed_report_amended :
    ∀ (cfg : Config) (up : Upload) (body : Json) (now raw : Str),
      configured cfg = true → isPre (S "image/") up.content_type = true →
      getContent body = .ok raw →
      (∀ l, jsonLoads raw = .ok (Json.obj l) → objGet? l (S "coin_analysis") = none →
        ∃ rep, analyze_coin cfg up (Upstream.resp 200 body) now = .ok rep
          ∧ wellFormedReport rep = true)
      ∧ (∀ e0 l, jsonLoads raw = .error e0 → extract_json raw = Json.obj l →
        ∃ rep, analyze_coin cfg up (Upstream.resp 200 body) now = .ok rep
          ∧ wellFormedReport rep = true)
      ∧ (∀ l, jsonLoads raw = .ok (Json.obj l) →
          (objGet? l (S "coin_analysis")).isSome = true →
          hasDictMetadata l = false →
          analyze_coin cfg up (Upstream.resp 200 body) now = .err 500) := by
  intro cfg up body now raw h1 h2 h3
  have ha := analyze_coin_200 cfg up body now raw h1 h2 h3
  refine ⟨?_, ?_, ?_⟩
  · intro l hok hca
    obtain ⟨b, hb, hpc⟩ :=
      processCompletion_dict_noCA raw cfg.deployment up.filename up.size now l hok hca
    have hwb : wellFormedReport b = true := create_beautiful_wellFormed l _ _ _ _ b hb
    by_cases hcond : (isUnknownField b (S "country")
        && isUnknownField b (S "denomination")) = true
    · obtain ⟨e, he, _, _⟩ := enhance_ok raw b (wellFormed_hasBasicPath b hwb)
      refine ⟨e, ?_, enhance_wellFormed raw b e hwb he⟩
      rw [ha, hpc, if_pos hcond, he]
    · refine ⟨b, ?_, hwb⟩
      rw [ha, hpc, if_neg hcond]
  · intro e0 l herr hext
    have hpc :=
      processCompletion_parse_error raw cfg.deployment up.filename up.size now e0 herr
    rw [hext] at hpc
    obtain ⟨b, hb⟩ := create_beautiful_ok l cfg.deployment up.filename up.size now
    refine ⟨b, ?_, create_beautiful_wellFormed l _ _ _ _ b hb⟩
    rw [ha, hpc, hb]
  · intro l hok hca hmd
    rw [ha]
    exact processCompletion_trust_noMetadata raw _ _ _ _ l hok hca hmd

/-- A complete, valid configuration for the C1 inputs. -/
def C1cfg : Config := ⟨some (S "k"), some (S "e"), S "gpt-4o"⟩

/-- A valid image upload for the C1 inputs. -/
def C1up : Upload := ⟨S "image/png", S "coin.png", 4⟩

/-- A 200 upstream envelope whose completion parses as a dict containing
"coin_analysis" but no "metadata". -/
def C1env : Json := Json.obj [(S "choices", Json.arr [Json.obj [(S "message",
  Json.obj [(S "content", Json.str (S "\x7b\"coin_analysis\": \x7b\x7d\x7d"))])]])]

/-- C1 counterexample: a successful upstream call (status 200, one choice,
string content) whose completion parses as a dict containing
"coin_analysis": on this trust-the-model path the endpoint raises on the
missing "metadata" member and answers 500 — not a well-formed CoinReport. -/
theorem C1_counterexample :
    getContent C1env = .ok (S "\x7b\"coin_analysis\": \x7b\x7d\x7d")
    ∧ jsonLoads (S "\x7b\"coin_analysis\": \x7b\x7d\x7d")
        = .ok (Json.obj [(S "coin_analysis", Json.obj [])])
    ∧ analyze_coin C1cfg C1up (Upstream.resp 200 C1env) (S "T") = .err 500 :=
  ⟨rfl, rfl, rfl⟩

/-- A 200 upstream envelope whose completion parses as a dict without
"coin_analysis". -/
def C1wenv : Json := Json.obj [(S "choices", Json.arr [Json.obj [(S "message",
  Json.obj [(S "content", Json.str (S "\x7b\"country\": \"France\"\x7d"))])]])]

/-- Witness for the amended C1: the structured path yields a 200 with a
well-formed report, and the trust path without dict metadata yields a 500. -/
theorem C1_wellformed_report_amended_witness :
    (∃ rep, analyze_coin C1cfg C1up (Upstream.resp 200 C1wenv) (S "T") = .ok rep
      ∧ wellFormedReport rep = true)
    ∧ analyze_coin C1cfg C1up (Upstream.resp 200 C1env) (S "T") = .err 500 :=
  ⟨(C1_wellformed_report_amended C1cfg C1up C1wenv (S "T")
      (S "\x7b\"country\": \"France\"\x7d") rfl rfl rfl).1
      [(S "country", Json.str (S "France"))] rfl rfl,
   (C1_wellformed_report_amended C1cfg C1up C1env (S "T")
      (S "\x7b\"coin_analysis\": \x7b\x7d\x7d") rfl rfl rfl).2.2
      [(S "coin_analysis", Json.obj [])] rfl rfl rfl⟩
